import Mathlib

/-!
Shallow embedding of Broadway's MP4 reader (`mp4.js`): the box-tree parser
cases and the per-track sample-index arithmetic (`Track`), as far as the
verified claims need them.

Conventions of the embedding:
* Bytes are naturals (< 256 by convention of the inputs we build).
* JavaScript numbers that stay non-negative integers on the reachable paths
  are modelled as `ℕ`; the one place the source produces a fractional value
  (the single-row path of `sampleToChunk`, which divides without
  `Math.floor`) is modelled in `ℚ`.
* `undefined` / `NaN` results (out-of-range table lookups and the arithmetic
  they poison) and thrown errors (out-of-bounds cursor reads,
  `undefined.length`) are both modelled as `none` of an `Option`: in every
  case the caller does not receive an ordinary numeric result.
* `assert` in the source only calls `console.error` and continues; it never
  aborts.  Where a claim is about an assert, the model exposes a `Bool`
  flag that is `true` exactly when the assert would have logged.
-/

namespace MP4

/-- Modelled from the spec: the external ByteStream byte cursor (§2, §6 of the
spec; the module `./ByteStream` is not part of the sources given), a positioned
reader over a fixed byte buffer providing big-endian fixed-width reads.  A read
past the end of the buffer fails (`none`), like the underlying DataView throw. -/
structure BStream where
  bytes : List ℕ
  pos : ℕ
deriving DecidableEq

def BStream.readU8 (s : BStream) : Option (ℕ × BStream) :=
  match s.bytes[s.pos]? with
  | some b => some (b, ⟨s.bytes, s.pos + 1⟩)
  | none => none

def BStream.readU16 (s : BStream) : Option (ℕ × BStream) := do
  let (a, s) ← s.readU8
  let (b, s) ← s.readU8
  pure (a * 256 + b, s)

def BStream.readU24 (s : BStream) : Option (ℕ × BStream) := do
  let (a, s) ← s.readU16
  let (b, s) ← s.readU8
  pure (a * 256 + b, s)

def BStream.readU32 (s : BStream) : Option (ℕ × BStream) := do
  let (a, s) ← s.readU16
  let (b, s) ← s.readU16
  pure (a * 65536 + b, s)

/-- Modelled from the spec: 16.16 fixed point is a u32 divided by 2^16. -/
def BStream.readFP16 (s : BStream) : Option (ℚ × BStream) :=
  (s.readU32).map (fun p => ((p.1 : ℚ) / 65536, p.2))

/-- Modelled from the spec: 8.8 fixed point is a u16 divided by 2^8. -/
def BStream.readFP8 (s : BStream) : Option (ℚ × BStream) :=
  (s.readU16).map (fun p => ((p.1 : ℚ) / 256, p.2))

/-- Modelled from the spec: `skip(n)` just advances the position; a skip past
the end only makes the next read fail. -/
def BStream.skip (s : BStream) (n : ℕ) : BStream :=
  ⟨s.bytes, s.pos + n⟩

def BStream.readU32Array : BStream → ℕ → Option (List ℕ × BStream)
  | s, 0 => some ([], s)
  | s, n + 1 => do
    let (v, s) ← s.readU32
    let (vs, s) ← s.readU32Array n
    pure (v :: vs, s)

/-- One row of the `stts` table (mp4.js line 268): `(count, delta)`. -/
structure SttsRow where
  count : ℕ
  delta : ℕ
deriving DecidableEq

/-- One row of the `stsc` table (mp4.js lines 278-279). -/
structure StscRow where
  firstChunk : ℕ
  samplesPerChunk : ℕ
  sampleDescriptionId : ℕ
deriving DecidableEq

/-- The `stsz` box as built by the `stsz` case of `readBox` (mp4.js lines
281-289): `table` is only assigned when `sampleSize == 0`; otherwise the field
is left absent (`none`).  The local variable `count` is not stored on the box. -/
structure StszBox where
  version : ℕ
  flags : ℕ
  sampleSize : ℕ
  table : Option (List ℕ)
deriving DecidableEq

/-- The `stsz` case of `readBox` (mp4.js lines 281-289), after the box header:
full header (version u8, flags u24), `sampleSize` u32, `count` u32, and the
per-sample table only when `sampleSize == 0`.  Written as nested matches so
each step mirrors one stream read of the source. -/
def readStsz (s : BStream) : Option (StszBox × BStream) :=
  match s.readU8 with
  | none => none
  | some (version, s) =>
    match s.readU24 with
    | none => none
    | some (flags, s) =>
      match s.readU32 with
      | none => none
      | some (sampleSize, s) =>
        match s.readU32 with
        | none => none
        | some (count, s) =>
          if sampleSize = 0 then
            match s.readU32Array count with
            | none => none
            | some (table, s) => some (⟨version, flags, sampleSize, some table⟩, s)
          else
            some (⟨version, flags, sampleSize, none⟩, s)

/-- The `tkhd` box fields read by the `tkhd` case of `readBox`
(mp4.js lines 139-156). -/
structure TkhdBox where
  version : ℕ
  flags : ℕ
  creationTime : ℕ
  modificationTime : ℕ
  trackId : ℕ
  duration : ℕ
  layer : ℕ
  alternateGroup : ℕ
  volume : ℚ
  matrix : List ℕ
  width : ℚ
  height : ℚ
deriving DecidableEq

/-- The `tkhd` case of `readBox` (mp4.js lines 139-156), after the box header.
The source's `assert (box.version == 0)` only logs (mp4.js lines 19-23) and the
field reads continue at the version-0 offsets regardless; the returned `Bool`
is `true` exactly when that assert would have logged. -/
def readTkhd (s : BStream) : Option (TkhdBox × Bool) := do
  let (version, s) ← s.readU8
  let (flags, s) ← s.readU24
  let (creationTime, s) ← s.readU32
  let (modificationTime, s) ← s.readU32
  let (trackId, s) ← s.readU32
  let s := s.skip 4
  let (duration, s) ← s.readU32
  let s := s.skip 8
  let (layer, s) ← s.readU16
  let (alternateGroup, s) ← s.readU16
  let (volume, s) ← s.readFP8
  let s := s.skip 2
  let (matrix, s) ← s.readU32Array 9
  let (width, s) ← s.readFP16
  let (height, _) ← s.readFP16
  pure (⟨version, flags, creationTime, modificationTime, trackId, duration,
         layer, alternateGroup, volume, matrix, width, height⟩, version != 0)

/-- A `Track` (mp4.js lines 348-550), flattened to the sample tables it
dereferences: `stsz` is `trak.mdia.minf.stbl.stsz`, `stscTable` is
`trak.mdia.minf.stbl.stsc.table`, `stcoTable` is
`trak.mdia.minf.stbl.stco.table`, `sttsTable` is
`trak.mdia.minf.stbl.stts.table`, `mdhdDuration` is `trak.mdia.mdhd.duration`,
and `fileBytes` is `this.file.stream.bytes` (the whole file buffer). -/
structure Track where
  stsz : StszBox
  stscTable : List StscRow
  stcoTable : List ℕ
  sttsTable : List SttsRow
  mdhdDuration : ℕ
  fileBytes : List ℕ
deriving DecidableEq

/-- mp4.js lines 355-357. -/
def Track.getSampleSizeTable (t : Track) : Option (List ℕ) :=
  t.stsz.table

/-- mp4.js lines 358-360: `getSampleSizeTable().length`.  On a uniform-size
track the table is `undefined` and `.length` throws, modelled `none`. -/
def Track.getSampleCount (t : Track) : Option ℕ :=
  t.getSampleSizeTable.map List.length

/-- The summation loop of `sampleToSize` (mp4.js lines 367-369): sums
`table[i]` for `i` in `[start, start+len)`.  An out-of-range `table[i]` is
`undefined` in the source and poisons the sum to `NaN`; here the lookup is
`none` and the whole sum becomes `none`. -/
def sizeLoop (table : List ℕ) : ℕ → ℕ → Option ℕ
  | _, 0 => some 0
  | i, n + 1 =>
    match table[i]? with
    | none => none
    | some v => (sizeLoop table (i + 1) n).map (fun acc => v + acc)

/-- mp4.js lines 364-371.  On a uniform-size track the table itself is
`undefined`: a zero-length loop still returns 0, any non-empty loop throws. -/
def Track.sampleToSize (t : Track) (start len : ℕ) : Option ℕ :=
  match t.getSampleSizeTable with
  | some table => sizeLoop table start len
  | none => if len = 0 then some 0 else none

/-- The multi-row loop of `sampleToChunk` (mp4.js lines 413-436), iterating
with `prev = table[i-1]` and `row = table[i]` for `i ≥ 1`; `sample` and
`tcc` (`totalChunkCount`) are the loop's mutable locals.  Falling off the end
of the table (`assert(false)`, line 437) yields `undefined` (`none`).
On well-formed tables `firstChunk` is increasing and `samplesPerChunk`
positive, so the `ℕ` subtractions and divisions agree with the source's
number arithmetic on every path the claims exercise. -/
def stscWalk : StscRow → List StscRow → ℕ → ℕ → Option (ℕ × ℕ)
  | _, [], _, _ => none
  | prev, row :: rest, sample, tcc =>
    let pcc := row.firstChunk - prev.firstChunk
    let psc := prev.samplesPerChunk * pcc
    if psc ≤ sample then
      match rest with
      | [] =>
        some (tcc + pcc + (sample - psc) / row.samplesPerChunk,
              (sample - psc) % row.samplesPerChunk)
      | _ :: _ => stscWalk row rest (sample - psc) (tcc + pcc)
    else
      some (tcc + sample / prev.samplesPerChunk, sample % prev.samplesPerChunk)

/-- mp4.js lines 376-438.  The single-row fast path (lines 404-411) computes
`sample / row.samplesPerChunk` with plain JavaScript division and no
`Math.floor`, so the chunk index is a rational, fractional whenever
`samplesPerChunk` does not divide `sample`; the result type is therefore
`ℚ × ℕ`.  The multi-row path produces integer indices (it uses `Math.floor`).
An empty table skips the loop and hits `assert(false)` / `undefined`. -/
def Track.sampleToChunk (t : Track) (sample : ℕ) : Option (ℚ × ℕ) :=
  match t.stscTable with
  | [] => none
  | [row] =>
    some ((sample : ℚ) / (row.samplesPerChunk : ℚ), sample % row.samplesPerChunk)
  | r0 :: r1 :: rest =>
    (stscWalk r0 (r1 :: rest) sample 0).map (fun p => ((p.1 : ℚ), p.2))

/-- mp4.js lines 439-442: `table[chunk]`.  A JavaScript array lookup at a
fractional, negative or past-the-end index is `undefined` (`none`). -/
def Track.chunkToOffset (t : Track) (chunk : ℚ) : Option ℕ :=
  if chunk.den = 1 ∧ 0 ≤ chunk.num then t.stcoTable[chunk.num.toNat]?
  else none

/-- mp4.js lines 443-447: chunk base offset plus the sizes of the samples
before the target inside its chunk.  Any `undefined`/`NaN` in the chain keeps
the result non-numeric (`none`). -/
def Track.sampleToOffset (t : Track) (sample : ℕ) : Option ℕ := do
  let (idx, off) ← t.sampleToChunk sample
  let base ← t.chunkToOffset idx
  let sz ← t.sampleToSize (sample - off) off
  pure (base + sz)

/-- The `while` loop of `getSampleNALUnits` (mp4.js lines 541-545): while
`end - offset > 0`, read a big-endian u32 length prefix at `offset` (a fresh
`ByteStream` over the whole buffer), push `bytes.subarray(offset+4,
offset+length+4)` (subarray clamps to the buffer, as `drop`/`take` do), and
advance `offset` past the prefix and the unit.  There is no check of
`offset + length + 4` against `e`; an overrunning prefix simply makes the
next loop test fail.  Only an out-of-bounds u32 read (a throw) yields `none`. -/
def nalLoop (bytes : List ℕ) (offset e : ℕ) : Option (List (List ℕ)) :=
  if _h : 0 < e - offset then
    match (BStream.mk bytes offset).readU32 with
    | none => none
    | some (length, _) =>
      match nalLoop bytes (offset + length + 4) e with
      | none => none
      | some rest => some ((bytes.drop (offset + 4)).take length :: rest)
  else
    some []
termination_by e - offset
decreasing_by simp_wf; omega

/-- mp4.js lines 536-547. -/
def Track.getSampleNALUnits (t : Track) (sample : ℕ) : Option (List (List ℕ)) := do
  let offset ← t.sampleToOffset sample
  let sz ← t.sampleToSize sample 1
  nalLoop t.fileBytes offset (offset + sz)

/-- The loop of `timeToSample` (mp4.js lines 473-481): per row, if
`time >= count * delta` subtract it and accumulate `count` into `sample`,
else return `sample + Math.floor(time / delta)`.  Falling off the end returns
`undefined` (`none`).  In the returning row `count * delta > time ≥ 0`, so
`delta > 0` there and `ℕ` division agrees with `Math.floor`. -/
def timeToSampleLoop : List SttsRow → ℕ → Option ℕ
  | [], _ => none
  | r :: rest, time =>
    if r.count * r.delta ≤ time then
      (timeToSampleLoop rest (time - r.count * r.delta)).map (fun sample => r.count + sample)
    else
      some (time / r.delta)

/-- mp4.js lines 451-482. -/
def Track.timeToSample (t : Track) (time : ℕ) : Option ℕ :=
  timeToSampleLoop t.sttsTable time

/-- The duration sum computed by the PARANOID block of `getTotalTime`
(mp4.js lines 488-492): sum of `count * delta` over the `stts` rows. -/
def sttsTotal (table : List SttsRow) : ℕ :=
  (table.map (fun r => r.count * r.delta)).sum

/-- mp4.js lines 486-496: the function returns `this.trak.mdia.mdhd.duration`
(line 495), not the computed sum. -/
def Track.getTotalTime (t : Track) : ℕ :=
  t.mdhdDuration

/-- The PARANOID consistency check of `getTotalTime` (mp4.js line 493):
`assert` merely logs on mismatch and execution continues; `true` means the
warning would have been logged. -/
def Track.getTotalTimeWarns (t : Track) : Bool :=
  t.mdhdDuration != sttsTotal t.sttsTable

/-- Spec-side helper: total duration of the first `i` rows of an `stts`
table (used to state which row a time falls into). -/
def durBefore (table : List SttsRow) (i : ℕ) : ℕ :=
  ((table.take i).map (fun r => r.count * r.delta)).sum

/-- Spec-side helper: total sample count of the first `i` rows of an `stts`
table. -/
def cntBefore (table : List SttsRow) (i : ℕ) : ℕ :=
  ((table.take i).map (fun r => r.count)).sum

/-! Concrete inputs used by the claims (the spec's Scenarios A-D and the
failing inputs).  Track fields that a given function never dereferences are
filled with empty tables. -/

/-- A track with a single-row `stsc` table `{firstChunk: 1, samplesPerChunk: 2}`. -/
def singleRowTrack : Track :=
  ⟨⟨0, 0, 0, some []⟩, [⟨1, 2, 1⟩], [0], [], 0, []⟩

/-- Scenario A's `stsc` table:
`[{firstChunk:1,samplesPerChunk:3,id:23},{firstChunk:3,samplesPerChunk:1,id:23},{firstChunk:5,samplesPerChunk:1,id:24}]`. -/
def scenarioATrack : Track :=
  ⟨⟨0, 0, 0, some []⟩, [⟨1, 3, 23⟩, ⟨3, 1, 23⟩, ⟨5, 1, 24⟩], [], [], 0, []⟩

/-- Scenario B's `stts` table `[{count:4,delta:3},{count:2,delta:1},{count:3,delta:2}]`. -/
def scenarioBTable : List SttsRow :=
  [⟨4, 3⟩, ⟨2, 1⟩, ⟨3, 2⟩]

/-- A track over Scenario B's `stts` table whose declared `mdhd.duration` is
the consistent value 20. -/
def scenarioBTrack : Track :=
  ⟨⟨0, 0, 0, some []⟩, [], [], scenarioBTable, 20, []⟩

/-- A track whose declared `mdhd.duration` (99) disagrees with its `stts`
table `[{count:4,delta:3}]` (total 12). -/
def mismatchedDurationTrack : Track :=
  ⟨⟨0, 0, 0, some []⟩, [], [], [⟨4, 3⟩], 99, []⟩

/-- Scenario C: one sample of declared size 11 at offset 0, whose bytes are
`[0,0,0,2, 0xAA,0xBB, 0,0,0,1, 0xCC]`. -/
def scenarioCTrack : Track :=
  ⟨⟨0, 0, 0, some [11]⟩, [⟨1, 1, 1⟩], [0], [], 0,
   [0, 0, 0, 2, 170, 187, 0, 0, 0, 1, 204]⟩

/-- A track with one sample of declared size 5 at offset 0 whose 4-byte
length prefix declares 6 bytes, which extends past the sample's end
(offset 10 > end 5). -/
def overrunTrack : Track :=
  ⟨⟨0, 0, 0, some [5]⟩, [⟨1, 1, 1⟩], [0], [], 0, [0, 0, 0, 6, 170]⟩

/-- A `tkhd` box body (84 bytes) whose version byte is 1; the remaining bytes
carry distinctive values at the version-0 offsets: creationTime 10,
modificationTime 20, trackId 7, duration 42, layer 1, alternateGroup 2. -/
def tkhdV1Bytes : List ℕ :=
  [1, 0, 0, 0, 0, 0, 0, 10, 0, 0, 0, 20, 0, 0, 0, 7] ++ [9, 9, 9, 9] ++
  [0, 0, 0, 42] ++ [8, 8, 8, 8, 8, 8, 8, 8] ++ [0, 1] ++ [0, 2] ++ [1, 0] ++
  [5, 5] ++ List.replicate 36 0 ++ [0, 5, 0, 0] ++ [0, 3, 0, 0]

/-- The stream bytes of an `stsz` box body with uniform `sampleSize` 5 and
declared `count` 7 (version 0, flags 0). -/
def stszUniformBytes : List ℕ :=
  [0, 0, 0, 0, 0, 0, 0, 5, 0, 0, 0, 7]

/-- A track whose `stsz` box is exactly the parse of `stszUniformBytes`:
uniform size 5, no per-sample table. -/
def mkStszTrack (b : StszBox) : Track :=
  ⟨b, [], [], [], 0, []⟩

/-! Helper lemmas (shared; not tied to a single claim). -/

theorem durBefore_zero (table : List SttsRow) : durBefore table 0 = 0 := by
  simp [durBefore]

theorem durBefore_cons_succ (r : SttsRow) (rest : List SttsRow) (i : ℕ) :
    durBefore (r :: rest) (i + 1) = r.count * r.delta + durBefore rest i := by
  simp [durBefore, List.take_succ_cons]

theorem cntBefore_zero (table : List SttsRow) : cntBefore table 0 = 0 := by
  simp [cntBefore]

theorem cntBefore_cons_succ (r : SttsRow) (rest : List SttsRow) (i : ℕ) :
    cntBefore (r :: rest) (i + 1) = r.count + cntBefore rest i := by
  simp [cntBefore, List.take_succ_cons]

/-- The loop of `timeToSample`, characterised row by row: when `time` falls
inside row `i` (at least the duration of the rows before it, less than that
plus row `i`'s own total duration), the loop returns the samples consumed by
the earlier rows plus `floor(remainder / delta)`. -/
theorem timeToSampleLoop_row :
    ∀ (table : List SttsRow) (time i : ℕ) (r : SttsRow),
      table[i]? = some r → durBefore table i ≤ time →
      time < durBefore table i + r.count * r.delta →
      timeToSampleLoop table time =
        some (cntBefore table i + (time - durBefore table i) / r.delta)
  | [], _, i, r, hget, _, _ => by simp at hget
  | r0 :: rest, time, 0, r, hget, _, h2 => by
    have hr : r0 = r := by simpa using hget
    subst hr
    have hlt : time < r0.count * r0.delta := by
      simpa [durBefore_zero] using h2
    simp [timeToSampleLoop, Nat.not_le.mpr hlt, durBefore_zero, cntBefore_zero]
  | r0 :: rest, time, i + 1, r, hget, h1, h2 => by
    have hget' : rest[i]? = some r := by simpa using hget
    have hd := durBefore_cons_succ r0 rest i
    have hle : r0.count * r0.delta ≤ time := by omega
    have ih := timeToSampleLoop_row rest (time - r0.count * r0.delta) i r hget'
      (by omega) (by omega)
    simp only [timeToSampleLoop, if_pos hle, ih, Option.map_some']
    rw [cntBefore_cons_succ, hd, Nat.sub_sub, Nat.add_assoc]

/-- The loop of `timeToSample` falls off the end of the table (returning
`undefined`) as soon as the time is at least the table's total duration. -/
theorem timeToSampleLoop_total_le :
    ∀ (table : List SttsRow) (time : ℕ), sttsTotal table ≤ time →
      timeToSampleLoop table time = none
  | [], _, _ => rfl
  | r :: rest, time, h => by
    have htot : sttsTotal (r :: rest) = r.count * r.delta + sttsTotal rest := by
      simp [sttsTotal]
    have hle : r.count * r.delta ≤ time := by omega
    have ih := timeToSampleLoop_total_le rest (time - r.count * r.delta) (by omega)
    simp [timeToSampleLoop, hle, ih]

/-- The summation loop of `sampleToSize` hits an out-of-range index (and
thus an `undefined` / `NaN` outcome) whenever the non-empty range
`[start, start+len)` reaches past the table. -/
theorem sizeLoop_out_of_range (table : List ℕ) :
    ∀ (len start : ℕ), len ≠ 0 → table.length < start + len →
      sizeLoop table start len = none := by
  intro len
  induction len with
  | zero => exact fun start h _ => absurd rfl h
  | succ n ih =>
    intro start _ hlt
    cases hv : table[start]? with
    | none => simp [sizeLoop, hv]
    | some v =>
      have hs : start < table.length := by
        by_contra hle
        rw [List.getElem?_eq_none (by omega)] at hv
        exact absurd hv (by simp)
      have hrec := ih (start + 1) (by omega) (by omega)
      simp [sizeLoop, hv, hrec]

/-! Claim theorems. -/

/-- Claim C1: the claim says a single-row `stsc` fast path returns the integer
chunk index `floor(sample / samplesPerChunk)`.  The code divides without
`Math.floor` (mp4.js line 408): at sample 1 with `samplesPerChunk` 2 it
returns the fractional index `1/2` — not the integer `0` (nor any integer) —
and the downstream `chunkToOffset` lookup at that fractional index is
`undefined`.  The sample-within-chunk offset `1 % 2 = 1` is as claimed. -/
theorem claim1_singleRow_fractional_index :
    Track.sampleToChunk singleRowTrack 1 = some (1 / 2, 1) ∧
    (∀ n : ℕ, Track.sampleToChunk singleRowTrack 1 ≠ some ((n : ℚ), 1)) ∧
    Track.chunkToOffset singleRowTrack ((1 : ℚ) / 2) = none := by
  refine ⟨rfl, ?_, ?_⟩
  · intro n h
    have h0 : Track.sampleToChunk singleRowTrack 1 = some (1 / 2, 1) := rfl
    rw [h0] at h
    have h1 : (1 : ℚ) / 2 = (n : ℚ) := congrArg Prod.fst (Option.some.inj h)
    have h2 : (1 : ℚ) = (n : ℚ) * 2 := by
      rw [div_eq_iff (by norm_num : (2 : ℚ) ≠ 0)] at h1
      exact h1
    have h3 : (1 : ℕ) = n * 2 := by exact_mod_cast h2
    omega
  · rw [Track.chunkToOffset, if_neg]
    rintro ⟨h1, -⟩
    rw [Rat.den_eq_one_iff] at h1
    have h2 : (((1 : ℚ) / 2).num : ℚ) * 2 = 1 := by
      rw [h1]
      norm_num
    have h3 : ((1 : ℚ) / 2).num * 2 = 1 := by exact_mod_cast h2
    omega

/-- Claim C2: Scenario A.  On the three-row `stsc` table
`[{1,3,23},{3,1,23},{5,1,24}]` the multi-row walk gives
`sampleToChunk 0 = (0,0)`, `sampleToChunk 3 = (1,0)`, `sampleToChunk 8 =
(4,0)`, and the last row is open-ended: sample 20, far past the nine samples
the five declared chunks hold, still lands in a (virtual) later chunk of the
last row rather than failing. -/
theorem claim2_scenarioA_sampleToChunk :
    Track.sampleToChunk scenarioATrack 0 = some (0, 0) ∧
    Track.sampleToChunk scenarioATrack 3 = some (1, 0) ∧
    Track.sampleToChunk scenarioATrack 8 = some (4, 0) ∧
    Track.sampleToChunk scenarioATrack 20 = some (16, 0) :=
  ⟨rfl, rfl, rfl, rfl⟩

/-- Claim C3, counterexample: the claim says `getSampleNALUnits` fails with a
format error when a length prefix would read past the sample's end.  On
`overrunTrack` (end = 5, first prefix declares 6, so the unit would end at
10 > 5) the function returns normally with the clamped unit `[0xAA]` instead
of failing. -/
theorem claim3_overrun_counterexample :
    Track.getSampleNALUnits overrunTrack 0 = some [[170]] := by
  with_unfolding_all rfl

/-- Claim C3, amended: the loop never checks a length prefix against `end`.
Whenever the prefix at `offset` is readable and declares a length that
reaches or passes `end`, the loop returns normally: it yields the single
unit clamped to the buffer (`subarray` clamps) and stops only because
`offset` jumped past `end`. -/
theorem claim3_overrun_returns_normally :
    ∀ (bytes : List ℕ) (offset e length : ℕ) (s : BStream),
      BStream.readU32 ⟨bytes, offset⟩ = some (length, s) → offset < e →
      e ≤ offset + length + 4 →
      nalLoop bytes offset e = some [(bytes.drop (offset + 4)).take length] := by
  intro bytes offset e length s hread hlt hle
  have hstop : nalLoop bytes (offset + length + 4) e = some [] := by
    rw [nalLoop.eq_def, dif_neg (show ¬ 0 < e - (offset + length + 4) by omega)]
  rw [nalLoop.eq_def, dif_pos (show 0 < e - offset by omega)]
  simp only [hread, hstop]

/-- Claim C3, witness for `claim3_overrun_returns_normally` at the concrete
overrunning input. -/
theorem claim3_overrun_returns_normally_witness :
    nalLoop [0, 0, 0, 6, 170] 0 5 = some [[170]] := by
  have h := claim3_overrun_returns_normally [0, 0, 0, 6, 170] 0 5 6
    ⟨[0, 0, 0, 6, 170], 4⟩ rfl (by omega) (by omega)
  simpa using h

/-- Claim C4, counterexample: the claim says `getTotalTime()` returns the sum
of `count*delta` over the `stts` rows.  The code returns the declared
`mdhd.duration` (mp4.js line 495): with `stts = [{4,3}]` (sum 12) and a
declared duration of 99 it returns 99, not 12. -/
theorem claim4_totalTime_counterexample :
    Track.getTotalTime mismatchedDurationTrack = 99 ∧
    sttsTotal mismatchedDurationTrack.sttsTable = 12 ∧
    Track.getTotalTime mismatchedDurationTrack ≠
      sttsTotal mismatchedDurationTrack.sttsTable := by
  refine ⟨rfl, rfl, ?_⟩
  decide

/-- Claim C4, amended: `getTotalTime` returns the declared `mdhd.duration`;
the PARANOID block computes the `stts` sum and a mismatch is only a logged
warning (the function still returns), so the result equals the sum exactly
when the consistency check passes — as it does on Scenario B's table with
the consistent declared duration 20. -/
theorem claim4_totalTime_is_declared_duration :
    (∀ t : Track, Track.getTotalTime t = t.mdhdDuration) ∧
    (∀ t : Track, Track.getTotalTimeWarns t = false →
      Track.getTotalTime t = sttsTotal t.sttsTable) ∧
    Track.getTotalTime scenarioBTrack = 20 ∧
    Track.getTotalTimeWarns scenarioBTrack = false ∧
    Track.getTotalTimeWarns mismatchedDurationTrack = true := by
  refine ⟨fun t => rfl, ?_, rfl, by decide, by decide⟩
  intro t h
  have h2 : t.mdhdDuration = sttsTotal t.sttsTable := by
    simpa [Track.getTotalTimeWarns] using h
  exact h2

/-- Claim C4, witness for the hypotheses of
`claim4_totalTime_is_declared_duration` at Scenario B's consistent track. -/
theorem claim4_totalTime_witness :
    Track.getTotalTime scenarioBTrack = sttsTotal scenarioBTrack.sttsTable :=
  claim4_totalTime_is_declared_duration.2.1 scenarioBTrack (by decide)

/-- Claim C5: Scenario B and the general walk.  On
`stts = [{4,3},{2,1},{3,2}]`, `timeToSample 12 = 4` and `timeToSample 19 = 8`;
in general, when a time falls inside row `i` the loop returns the samples of
the earlier rows plus `floor(remainder / delta)`, and `timeToSample 0 = 0`
whenever the first row has positive total duration. -/
theorem claim5_timeToSample_spec :
    Track.timeToSample scenarioBTrack 12 = some 4 ∧
    Track.timeToSample scenarioBTrack 19 = some 8 ∧
    (∀ (table : List SttsRow) (time i : ℕ) (r : SttsRow),
      table[i]? = some r → durBefore table i ≤ time →
      time < durBefore table i + r.count * r.delta →
      timeToSampleLoop table time =
        some (cntBefore table i + (time - durBefore table i) / r.delta)) ∧
    (∀ (r : SttsRow) (rest : List SttsRow), 0 < r.count * r.delta →
      timeToSampleLoop (r :: rest) 0 = some 0) := by
  refine ⟨rfl, rfl, timeToSampleLoop_row, ?_⟩
  intro r rest h
  simp [timeToSampleLoop, Nat.not_le.mpr h]

/-- Claim C5, witness for the hypotheses of `claim5_timeToSample_spec`:
time 19 falls in row 2 of Scenario B's table (`durBefore = 14`,
`cntBefore = 6`, so `6 + (19-14)/2 = 8`), and `timeToSample 0 = 0` on it. -/
theorem claim5_timeToSample_witness :
    timeToSampleLoop scenarioBTable 19 =
      some (cntBefore scenarioBTable 2 + (19 - durBefore scenarioBTable 2) / 2) ∧
    timeToSampleLoop scenarioBTable 0 = some 0 := by
  constructor
  · exact claim5_timeToSample_spec.2.2.1 scenarioBTable 19 2 ⟨3, 2⟩ (by decide)
      (by decide) (by decide)
  · exact claim5_timeToSample_spec.2.2.2 ⟨4, 3⟩ [⟨2, 1⟩, ⟨3, 2⟩] (by decide)

/-- Claim C6: Scenario C.  On the sample bytes
`[0,0,0,2, 0xAA,0xBB, 0,0,0,1, 0xCC]` with declared size 11,
`getSampleNALUnits` extracts exactly `[0xAA,0xBB]` and `[0xCC]` (prefixes
excluded), the two prefixed units consuming the whole declared size
(4+2+4+1 = 11) with no trailing bytes. -/
theorem claim6_scenarioC_nalUnits :
    Track.sampleToSize scenarioCTrack 0 1 = some 11 ∧
    Track.getSampleNALUnits scenarioCTrack 0 = some [[170, 187], [204]] :=
  ⟨rfl, by with_unfolding_all rfl⟩

/-- Claim C7, counterexample: the claim says parsing a `tkhd` with version
byte 1 raises an UnsupportedVariant error.  The code's `assert` only logs
(mp4.js lines 19-23): the parse of an 84-byte version-1 `tkhd` body returns
a box instead of failing. -/
theorem claim7_tkhd_v1_counterexample :
    (readTkhd ⟨tkhdV1Bytes, 0⟩).isSome = true := rfl

/-- Claim C7, amended: on a version-1 `tkhd` the parser logs the assertion
failure (warning flag `true`) and continues reading every remaining field at
the version-0 offsets (creationTime 10, modificationTime 20, trackId 7,
duration 42, layer 1, alternateGroup 2 are read from those offsets); the
same bytes with version 0 parse identically with the flag `false`. -/
theorem claim7_tkhd_v1_logs_and_continues :
    (readTkhd ⟨tkhdV1Bytes, 0⟩).map (fun p => p.2) = some true ∧
    (readTkhd ⟨tkhdV1Bytes, 0⟩).map (fun p => p.1.version) = some 1 ∧
    (readTkhd ⟨tkhdV1Bytes, 0⟩).map (fun p => p.1.creationTime) = some 10 ∧
    (readTkhd ⟨tkhdV1Bytes, 0⟩).map (fun p => p.1.modificationTime) = some 20 ∧
    (readTkhd ⟨tkhdV1Bytes, 0⟩).map (fun p => p.1.trackId) = some 7 ∧
    (readTkhd ⟨tkhdV1Bytes, 0⟩).map (fun p => p.1.duration) = some 42 ∧
    (readTkhd ⟨tkhdV1Bytes, 0⟩).map (fun p => p.1.layer) = some 1 ∧
    (readTkhd ⟨tkhdV1Bytes, 0⟩).map (fun p => p.1.alternateGroup) = some 2 ∧
    (readTkhd ⟨0 :: tkhdV1Bytes.tail, 0⟩).map (fun p => p.2) = some false :=
  ⟨rfl, rfl, rfl, rfl, rfl, rfl, rfl, rfl, rfl⟩

/-- Claim C8: out-of-range Track Index queries are never clamped or absorbed
into a normal numeric result: `chunkToOffset` past the `stco` table's end is
the non-value `undefined` (`none`), and `sampleToSize` over a non-empty range
reaching past the size table's end is the non-value `NaN` (`none`). -/
theorem claim8_out_of_range_not_clamped :
    (∀ (t : Track) (chunk : ℕ), t.stcoTable.length ≤ chunk →
      Track.chunkToOffset t (chunk : ℚ) = none) ∧
    (∀ (t : Track) (table : List ℕ) (start len : ℕ),
      t.getSampleSizeTable = some table → len ≠ 0 →
      table.length < start + len → Track.sampleToSize t start len = none) := by
  constructor
  · intro t chunk h
    have h1 : ((chunk : ℚ)).den = 1 := Rat.den_natCast chunk
    have h2 : ((chunk : ℚ)).num = (chunk : ℤ) := Rat.num_natCast chunk
    rw [Track.chunkToOffset, if_pos ⟨h1, by omega⟩, h2]
    rw [Int.toNat_natCast]
    exact List.getElem?_eq_none h
  · intro t table start len ht hlen hlt
    rw [Track.sampleToSize]
    rw [show t.getSampleSizeTable = some table from ht]
    exact sizeLoop_out_of_range table len start hlen hlt

/-- Claim C8, witness for `claim8_out_of_range_not_clamped`: on
`overrunTrack` (one chunk, one sample) chunk index 1 and the sample range
`[1, 2)` are both out of range and both queries yield `none`. -/
theorem claim8_out_of_range_witness :
    Track.chunkToOffset overrunTrack ((1 : ℕ) : ℚ) = none ∧
    Track.sampleToSize overrunTrack 1 1 = none :=
  ⟨claim8_out_of_range_not_clamped.1 overrunTrack 1 (by decide),
   claim8_out_of_range_not_clamped.2 overrunTrack [5] 1 1 rfl (by decide) (by decide)⟩

/-- Claim C9, counterexample: the claim says a uniform-size `stsz` track's
`sampleCount()` returns the declared count and each sample the uniform size.
Parsing an `stsz` body with `sampleSize` 5 and declared `count` 7 stores no
table (and drops the count), `getSampleCount` has no table to measure
(`undefined.length`, modelled `none`) rather than 7, and a one-sample size
query fails rather than returning the uniform size 5. -/
theorem claim9_uniform_stsz_counterexample :
    readStsz ⟨stszUniformBytes, 0⟩ = some (⟨0, 0, 5, none⟩, ⟨stszUniformBytes, 12⟩) ∧
    Track.getSampleCount (mkStszTrack ⟨0, 0, 5, none⟩) ≠ some 7 ∧
    Track.getSampleCount (mkStszTrack ⟨0, 0, 5, none⟩) = none ∧
    Track.sampleToSize (mkStszTrack ⟨0, 0, 5, none⟩) 0 1 ≠ some 5 := by
  refine ⟨rfl, ?_, rfl, ?_⟩ <;> decide

/-- Claim C9, amended: `readStsz` attaches a size table exactly when the
uniform `sampleSize` is zero (the declared count is kept only as a local and
never stored); `getSampleCount` is the table's length when the table exists
and fails (`undefined.length`) when it does not. -/
theorem claim9_stsz_table_presence :
    (∀ (s s' : BStream) (box : StszBox), readStsz s = some (box, s') →
      (box.table = none ↔ box.sampleSize ≠ 0)) ∧
    (∀ b : StszBox, b.table = none →
      Track.getSampleCount (mkStszTrack b) = none) ∧
    (∀ (b : StszBox) (l : List ℕ), b.table = some l →
      Track.getSampleCount (mkStszTrack b) = some l.length) := by
  refine ⟨?_, ?_, ?_⟩
  · intro s s' box h
    unfold readStsz at h
    repeat' split at h
    all_goals first
      | exact Option.noConfusion h
      | (injection h with h0; injection h0 with h1 h2; subst h1; simp_all)
  · intro b hb
    simp [Track.getSampleCount, Track.getSampleSizeTable, mkStszTrack, hb]
  · intro b l hb
    simp [Track.getSampleCount, Track.getSampleSizeTable, mkStszTrack, hb]

/-- Claim C9, witness for the hypotheses of `claim9_stsz_table_presence` at
the concrete uniform-size parse. -/
theorem claim9_stsz_table_presence_witness :
    ((⟨0, 0, 5, none⟩ : StszBox).table = none ↔
      (⟨0, 0, 5, none⟩ : StszBox).sampleSize ≠ 0) ∧
    Track.getSampleCount (mkStszTrack ⟨0, 0, 5, none⟩) = none ∧
    Track.getSampleCount (mkStszTrack ⟨0, 0, 0, some [3, 4]⟩) = some 2 :=
  ⟨claim9_stsz_table_presence.1 ⟨stszUniformBytes, 0⟩ ⟨stszUniformBytes, 12⟩
     ⟨0, 0, 5, none⟩ rfl,
   claim9_stsz_table_presence.2.1 ⟨0, 0, 5, none⟩ rfl,
   claim9_stsz_table_presence.2.2 ⟨0, 0, 0, some [3, 4]⟩ [3, 4] rfl⟩

/-- Claim C10: for any time at or past the table's total duration the
`timeToSample` walk falls off the end of the table and yields no sample index
at all (`undefined`, modelled `none`) — neither a clamped last sample nor an
error. -/
theorem claim10_timeToSample_past_end :
    ∀ (t : Track) (time : ℕ), sttsTotal t.sttsTable ≤ time →
      Track.timeToSample t time = none :=
  fun t time h => timeToSampleLoop_total_le t.sttsTable time h

/-- Claim C10, witness for `claim10_timeToSample_past_end` at Scenario B's
track and its exact total duration 20. -/
theorem claim10_timeToSample_past_end_witness :
    Track.timeToSample scenarioBTrack 20 = none :=
  claim10_timeToSample_past_end scenarioBTrack 20 (by decide)

end MP4
